import Mathlib

/-!
Shallow embedding of the scheduling and delivery core of bot.py.

Records are dict-shaped in the source; here each record keeps its raw
kind string plus the parsed forms of its trigger fields, where a `none`
models a missing or unparseable field (the source raises inside the
scheduling try/except in that case, leaving the job queue as it was
after the cancellation step).  Times are Moscow civil seconds (the
source pins Europe/Moscow, a fixed UTC+3 offset); the scheduler
converts to UTC by subtracting `mskOffset` exactly where the source
calls astimezone / utcnow.
-/

namespace Bot

abbrev ChatId := Int

/-- Model of the Python str.startswith test: the first list is a leading
segment of the second. -/
def listPre : List Char → List Char → Bool
  | [], _ => true
  | _ :: _, [] => false
  | a :: as, b :: bs => a == b && listPre as bs

/-- name.startswith(p) from the source, on our string model. -/
def strPre (p s : String) : Bool := listPre p.data s.data

/-- Membership test used for the Python `in` operator on chat lists. -/
def listHas (l : List ChatId) (c : ChatId) : Bool := l.any (fun x => x == c)

/-- The two firing shapes the source registers on the job queue:
job_queue.run_once at a UTC instant, and job_queue.run_daily at a UTC
time of day restricted to a set of weekdays. -/
inductive Trigger where
  | runOnce (utc : Int)
  | runDaily (utcHour utcMin : Nat) (days : List Nat)
deriving DecidableEq, Repr

/-- A job on the queue, keyed by its name string exactly as in the source. -/
structure Job where
  name : String
  trig : Trigger
deriving DecidableEq, Repr

/-- A reminder record.  rtype mirrors the "type" dict key; datetimeMsk is
the parsed "datetime" (Moscow seconds) for once records; timeOfDay the
parsed "time" hour/minute pair; weekday the days_map image of "day". -/
structure Reminder where
  id : String
  rtype : String
  datetimeMsk : Option Int
  timeOfDay : Option (Nat × Nat)
  weekday : Option Nat
  text : String
  lastSent : Option Int
  deliveryStatus : String
deriving DecidableEq, Repr

/-- A poll record, same trigger shape as a reminder plus question data and
the "status" field consulted by schedule_all_polls. -/
structure Poll where
  id : String
  ptype : String
  status : String
  datetimeMsk : Option Int
  timeOfDay : Option (Nat × Nat)
  weekday : Option Nat
  question : String
  options : List String
  allowMultiple : Bool
  lastSent : Option Int
  deliveryStatus : String
deriving DecidableEq, Repr

/-- Moscow is UTC+3: 10800 seconds. -/
def mskOffset : Int := 10800

def reminderJobName (rid : String) : String := "reminder_" ++ rid

def pollJobName (pid : String) : String := "poll_" ++ pid

/-- Name given to the immediate catch-up job for a missed one-time poll. -/
def pollMissedJobName (pid : String) : String := "poll_" ++ (pid ++ "_missed")

/-- The cancellation loop at the top of schedule_reminder / schedule_poll:
every job whose name equals the key is removed from the queue. -/
def cancelByName (q : List Job) (n : String) : List Job :=
  q.filter (fun j => j.name != n)

/-- run_daily with no days argument fires every day of the week. -/
def allWeekdays : List Nat := [0, 1, 2, 3, 4, 5, 6]

/-- schedule_reminder: cancel the job named reminder_id, then register at
most one new job according to the record kind.  A once reminder is
registered only when its trigger is strictly in the future; a past
trigger falls through with no job.  Parse failures (`none` fields) leave
the queue as after cancellation, like the except handler in the source. -/
def scheduleReminder (now : Int) (q : List Job) (r : Reminder) : List Job :=
  let q1 := cancelByName q (reminderJobName r.id)
  if r.rtype = "once" then
    match r.datetimeMsk with
    | none => q1
    | some t => if t > now then q1 ++ [⟨reminderJobName r.id, .runOnce (t - mskOffset)⟩] else q1
  else if r.rtype = "daily" then
    match r.timeOfDay with
    | none => q1
    | some (h, m) => q1 ++ [⟨reminderJobName r.id, .runDaily ((h + 21) % 24) m allWeekdays⟩]
  else if r.rtype = "weekly" then
    match r.weekday, r.timeOfDay with
    | some d, some (h, m) => q1 ++ [⟨reminderJobName r.id, .runDaily ((h + 21) % 24) m [d]⟩]
    | _, _ => q1
  else q1

/-- schedule_poll: cancel the job named poll_id, then register by kind.
A once poll strictly in the future gets a job at its instant; one in the
past by at most 3600 seconds gets an immediate job five seconds from the
current UTC time, under the distinct name poll_id_missed; an older one
gets no job. -/
def schedulePoll (now : Int) (q : List Job) (p : Poll) : List Job :=
  let q1 := cancelByName q (pollJobName p.id)
  if p.ptype = "once" ∨ p.ptype = "one_time" then
    match p.datetimeMsk with
    | none => q1
    | some t =>
      if t > now then q1 ++ [⟨pollJobName p.id, .runOnce (t - mskOffset)⟩]
      else if t - now ≥ -3600 then
        q1 ++ [⟨pollMissedJobName p.id, .runOnce (now - mskOffset + 5)⟩]
      else q1
  else if p.ptype = "daily" ∨ p.ptype = "daily_poll" then
    match p.timeOfDay with
    | none => q1
    | some (h, m) => q1 ++ [⟨pollJobName p.id, .runDaily ((h + 21) % 24) m allWeekdays⟩]
  else if p.ptype = "weekly" ∨ p.ptype = "weekly_poll" then
    match p.weekday, p.timeOfDay with
    | some d, some (h, m) => q1 ++ [⟨pollJobName p.id, .runDaily ((h + 21) % 24) m [d]⟩]
    | _, _ => q1
  else q1

/-- schedule_all_reminders: every stored reminder is passed to
schedule_reminder; there is no filtering. -/
def scheduleAllReminders (now : Int) (rs : List Reminder) (q : List Job) : List Job :=
  rs.foldl (scheduleReminder now) q

/-- schedule_all_polls: the loop body calls schedule_poll only when the
status field is exactly "Active". -/
def scheduleAllPolls (now : Int) (ps : List Poll) (q : List Job) : List Job :=
  ps.foldl (fun acc p => if p.status = "Active" then schedulePoll now acc p else acc) q

def isReminderNamed (j : Job) : Bool := strPre "reminder_" j.name

def isPollNamed (j : Job) : Bool := strPre "poll_" j.name

/-- reschedule_all_reminders: remove every job whose name starts with
reminder_, then schedule all stored reminders again. -/
def rescheduleAllReminders (now : Int) (rs : List Reminder) (q : List Job) : List Job :=
  scheduleAllReminders now rs (q.filter (fun j => !(isReminderNamed j)))

/-- reschedule_all_polls: remove every job whose name starts with poll_,
then schedule all stored polls again. -/
def rescheduleAllPolls (now : Int) (ps : List Poll) (q : List Job) : List Job :=
  scheduleAllPolls now ps (q.filter (fun j => !(isPollNamed j)))

/-- Per-recipient delivery outcomes as classified by the source: success,
a permanently-unreachable error (blocked bot, deactivated account, chat
deleted, chat not found), or any other failure. -/
inductive SendRes where
  | ok
  | errPermanent
  | errOther
deriving DecidableEq, Repr

/-- Accumulator of the fan-out loop: counters, the removal list of
blocked chats, and the trace of delivery attempts, each tagged with
whether it was the degraded-format fallback attempt. -/
structure Fanout where
  sent : Nat
  failed : Nat
  blocked : List ChatId
  attempts : List (ChatId × Bool)
deriving DecidableEq, Repr

def fanoutInit : Fanout := ⟨0, 0, [], []⟩

/-- One iteration of the send_reminder fan-out loop.  A permanent error
adds the chat to the removal list and skips the fallback (continue); any
other error triggers one plain-text fallback attempt, itself classified
the same way. -/
def reminderStep (send1 send2 : ChatId → SendRes) (a : Fanout) (cid : ChatId) : Fanout :=
  match send1 cid with
  | .ok =>
    { a with sent := a.sent + 1, attempts := a.attempts ++ [(cid, false)] }
  | .errPermanent =>
    { a with failed := a.failed + 1, blocked := a.blocked ++ [cid],
             attempts := a.attempts ++ [(cid, false)] }
  | .errOther =>
    match send2 cid with
    | .ok =>
      { a with sent := a.sent + 1, attempts := a.attempts ++ [(cid, false), (cid, true)] }
    | .errPermanent =>
      { a with failed := a.failed + 1, blocked := a.blocked ++ [cid],
               attempts := a.attempts ++ [(cid, false), (cid, true)] }
    | .errOther =>
      { a with failed := a.failed + 1, attempts := a.attempts ++ [(cid, false), (cid, true)] }

/-- One iteration of the send_poll fan-out loop: no fallback exists for
polls; a permanent error adds the chat to the removal list. -/
def pollStep (send1 : ChatId → SendRes) (a : Fanout) (cid : ChatId) : Fanout :=
  match send1 cid with
  | .ok =>
    { a with sent := a.sent + 1, attempts := a.attempts ++ [(cid, false)] }
  | .errPermanent =>
    { a with failed := a.failed + 1, blocked := a.blocked ++ [cid],
             attempts := a.attempts ++ [(cid, false)] }
  | .errOther =>
    { a with failed := a.failed + 1, attempts := a.attempts ++ [(cid, false)] }

/-- Observable result of one firing of send_reminder: the persisted chat
list, the persisted reminder collection, the attempt trace, the
counters, the removal list, and the updated record copy that is mirrored
to the backup store (the source only ever mirrors it for once records;
the local collection never receives it). -/
structure ReminderFire where
  chats : List ChatId
  store : List Reminder
  attempts : List (ChatId × Bool)
  sent : Nat
  failed : Nat
  blocked : List ChatId
  backupCopy : Option Reminder
deriving Repr

/-- send_reminder.  With an empty chat list nothing is attempted: a once
record is removed from the local collection and its updated copy is
mirrored as deleted; a recurring record is left alone.  Otherwise the
fan-out runs over every chat, blocked chats are filtered out of the
persisted chat list, and a once record is removed afterwards; a
recurring record is not rewritten at all. -/
def sendReminder (now : Int) (r : Reminder) (chats : List ChatId) (store : List Reminder)
    (send1 send2 : ChatId → SendRes) : ReminderFire :=
  if chats = [] then
    if r.rtype = "once" then
      let upd : Reminder :=
        { r with
          lastSent := some now,
          deliveryStatus := "No recipients available - auto-deleted" }
      { chats := chats, store := store.filter (fun x => x.id != r.id),
        attempts := [], sent := 0, failed := 0, blocked := [], backupCopy := some upd }
    else
      { chats := chats, store := store, attempts := [], sent := 0, failed := 0,
        blocked := [], backupCopy := none }
  else
    let f := chats.foldl (reminderStep send1 send2) fanoutInit
    let chats1 := if f.blocked = [] then chats else chats.filter (fun c => !(listHas f.blocked c))
    if r.rtype = "once" then
      let upd : Reminder :=
        { r with
          lastSent := some now,
          deliveryStatus := "Sent to " ++ toString f.sent ++ " chats, failed to "
            ++ toString f.failed ++ " chats, removed "
            ++ toString f.blocked.length ++ " blocked" }
      { chats := chats1, store := store.filter (fun x => x.id != r.id),
        attempts := f.attempts, sent := f.sent, failed := f.failed, blocked := f.blocked,
        backupCopy := some upd }
    else
      { chats := chats1, store := store, attempts := f.attempts,
        sent := f.sent, failed := f.failed, blocked := f.blocked, backupCopy := none }

/-- The source treats both spellings as one-time polls. -/
def isOncePoll (p : Poll) : Bool := p.ptype == "once" || p.ptype == "one_time"

/-- The update loop in send_poll replaces the first stored record whose
id matches and then breaks. -/
def replaceFirstPoll : List Poll → String → Poll → List Poll
  | [], _, _ => []
  | x :: xs, pid, np => if x.id = pid then np :: xs else x :: replaceFirstPoll xs pid np

/-- Observable result of one firing of send_poll, shaped like
ReminderFire; for polls the updated copy is also written into the local
collection before a once record is removed. -/
structure PollFire where
  chats : List ChatId
  store : List Poll
  attempts : List (ChatId × Bool)
  sent : Nat
  failed : Nat
  blocked : List ChatId
  backupCopy : Option Poll
deriving Repr

/-- send_poll.  Empty chat list: a once record is removed, a recurring one
untouched, nothing attempted.  Otherwise: fan-out with no fallback,
blocked chats filtered out, the stored record rewritten in place with
last_sent and the outcome summary, and a once record removed afterwards. -/
def sendPoll (now : Int) (p : Poll) (chats : List ChatId) (store : List Poll)
    (send1 : ChatId → SendRes) : PollFire :=
  if chats = [] then
    if isOncePoll p then
      let upd : Poll :=
        { p with
          lastSent := some now,
          deliveryStatus := "No recipients available - auto-deleted" }
      { chats := chats, store := store.filter (fun x => x.id != p.id),
        attempts := [], sent := 0, failed := 0, blocked := [], backupCopy := some upd }
    else
      { chats := chats, store := store, attempts := [], sent := 0, failed := 0,
        blocked := [], backupCopy := none }
  else
    let f := chats.foldl (pollStep send1) fanoutInit
    let chats1 := if f.blocked = [] then chats else chats.filter (fun c => !(listHas f.blocked c))
    let updated : Poll :=
      { p with
        lastSent := some now,
        deliveryStatus := "Sent to " ++ toString f.sent ++ " chats, "
          ++ toString f.failed ++ " failed" }
    let store1 := replaceFirstPoll store p.id updated
    let store2 := if isOncePoll p then store1.filter (fun x => x.id != p.id) else store1
    { chats := chats1, store := store2, attempts := f.attempts,
      sent := f.sent, failed := f.failed, blocked := f.blocked, backupCopy := some updated }

/-- State of a collection file on disk as the load functions see it. -/
inductive FileSt where
  | missing
  | content (s : String)

/-- Python str.strip(): drop leading and trailing whitespace. -/
def pyStrip (s : String) : String :=
  ⟨((s.data.dropWhile Char.isWhitespace).reverse.dropWhile Char.isWhitespace).reverse⟩

/-- load_reminders: a missing file, a whitespace-only file, and a decode
failure (JSONDecodeError) all yield the empty list; otherwise the decoded
collection is returned.  The JSON decoder is a parameter. -/
def load_reminders (decode : String → Option (List Reminder)) : FileSt → List Reminder
  | .missing => []
  | .content raw =>
    let data := pyStrip raw
    if data = "" then []
    else
      match decode data with
      | none => []
      | some v => v

/-- load_polls has the same structure as load_reminders. -/
def load_polls (decode : String → Option (List Poll)) : FileSt → List Poll
  | .missing => []
  | .content raw =>
    let data := pyStrip raw
    if data = "" then []
    else
      match decode data with
      | none => []
      | some v => v

/-- Outcome of one pull from the external backup store for a collection. -/
inductive RestoreOutcome (α : Type) where
  | unreachable
  | failure
  | success (recs : List α)

/-- Modelled from the spec: the restore operations live in the
sheets_integration module, which is not part of this repository; only
their call sites are.  Per the spec, a successful restore fully
overwrites the local collection with the backup record set and reports
success, while an unreachable backup store or a reported failure leaves
the previous local contents authoritative. -/
def restoreFromBackup {α : Type} (b : RestoreOutcome α) (localRecs : List α) : Bool × List α :=
  match b with
  | .success recs => (true, recs)
  | .unreachable => (false, localRecs)
  | .failure => (false, localRecs)

def RestoreOutcome.succeeded {α : Type} : RestoreOutcome α → Bool
  | .success _ => true
  | _ => false

/-- Local store collections plus the live job queue. -/
structure BotState where
  reminders : List Reminder
  polls : List Poll
  jobs : List Job

/-- The reconciliation flow of the restore command: pull reminders and
polls from the backup store, then reschedule exactly the collections
whose restore reported success. -/
def restoreCommand (now : Int) (bRem : RestoreOutcome Reminder) (bPoll : RestoreOutcome Poll)
    (st : BotState) : BotState :=
  let rRem := restoreFromBackup bRem st.reminders
  let rPoll := restoreFromBackup bPoll st.polls
  let jobs1 := if rRem.1 then rescheduleAllReminders now rRem.2 st.jobs else st.jobs
  let jobs2 := if rPoll.1 then rescheduleAllPolls now rPoll.2 jobs1 else jobs1
  { reminders := rRem.2, polls := rPoll.2, jobs := jobs2 }

/-- ensure_polls_file: always try a backup sync; on success the synced
collection wins; on failure or with the backup store unavailable the
local collection stays when it is non-empty, and an empty collection is
written out otherwise.  Returns the (restored?, count) pair of the
source together with the resulting local collection. -/
def ensurePollsFile (sheetsAvailable : Bool) (b : RestoreOutcome Poll)
    (localPolls : List Poll) : (Bool × Nat) × List Poll :=
  let localCount := localPolls.length
  if sheetsAvailable then
    match restoreFromBackup b localPolls with
    | (true, recs) => ((true, recs.length), recs)
    | (false, _) =>
      if localCount > 0 then ((true, localCount), localPolls) else ((false, 0), [])
  else
    if localCount > 0 then ((true, localCount), localPolls) else ((false, 0), [])

/-- Number of live jobs in the queue carrying exactly the given name. -/
def countNamed (q : List Job) (n : String) : Nat :=
  (q.filter (fun j => j.name == n)).length

/-- All live jobs belonging to a given poll record id: the source uses the
name poll_id for regular jobs and poll_id_missed for the catch-up job of
a missed one-time poll. -/
def jobsForPollId (q : List Job) (pid : String) : List Job :=
  q.filter (fun j => j.name == pollJobName pid || j.name == pollMissedJobName pid)

/-- A one-time reminder whose trigger (Moscow seconds) is 1800 s in the
past relative to the sample clock value 1000000. -/
def remPastSample : Reminder := ⟨"1", "once", some 998200, none, none, "X", none, ""⟩

/-- A one-time poll with the same just-missed trigger. -/
def pollPastSample : Poll :=
  ⟨"7", "once", "Active", some 998200, none, none, "q", ["a", "b"], true, none, ""⟩

/-- A daily reminder sample. -/
def remDailySample : Reminder := ⟨"2", "daily", none, some (9, 30), none, "Y", none, ""⟩

/-- A daily poll sample. -/
def pollDailySample : Poll :=
  ⟨"8", "daily", "Active", none, some (9, 30), none, "q2", ["a", "b"], true, none, ""⟩

/-- A poll whose status is not Active. -/
def pollDeletedSample : Poll :=
  ⟨"9", "daily", "Deleted", none, some (9, 30), none, "q3", ["a", "b"], true, none, ""⟩

/-- Gateway stub: every send succeeds. -/
def alwaysOk : ChatId → SendRes := fun _ => SendRes.ok

/-- Gateway stub: every send fails with a permanently-unreachable error. -/
def alwaysBlocked : ChatId → SendRes := fun _ => SendRes.errPermanent

/-- Gateway stub: chat 10 is permanently unreachable, the rest succeed. -/
def blockedTen : ChatId → SendRes := fun c => if c == 10 then SendRes.errPermanent else SendRes.ok

/-! Helper lemmas about name prefixes and job-queue filtering. -/

theorem listPre_append (p t : List Char) : listPre p (p ++ t) = true := by
  induction p with
  | nil => rfl
  | cons a as ih => simp [listPre, ih]

theorem strData_append (a b : String) : (a ++ b).data = a.data ++ b.data := by
  cases a
  cases b
  rfl

theorem strPre_append (p t : String) : strPre p (p ++ t) = true := by
  unfold strPre
  rw [strData_append]
  exact listPre_append p.data t.data

theorem listPre_head {a : Char} {as l : List Char} (h : listPre (a :: as) l = true) :
    ∃ t, l = a :: t := by
  cases l with
  | nil => simp [listPre] at h
  | cons b bs =>
    simp only [listPre, Bool.and_eq_true, beq_iff_eq] at h
    exact ⟨bs, by rw [h.1]⟩

theorem not_rem_and_poll {n : String} :
    ¬(strPre "reminder_" n = true ∧ strPre "poll_" n = true) := by
  rintro ⟨h1, h2⟩
  unfold strPre at h1 h2
  rw [show ("reminder_").data = 'r' :: ("eminder_").data from rfl] at h1
  rw [show ("poll_").data = 'p' :: ("oll_").data from rfl] at h2
  obtain ⟨t1, ht1⟩ := listPre_head h1
  obtain ⟨t2, ht2⟩ := listPre_head h2
  rw [ht1] at ht2
  simp at ht2

theorem remName_pre (rid : String) : strPre "reminder_" (reminderJobName rid) = true :=
  strPre_append "reminder_" rid

theorem pollName_pre (pid : String) : strPre "poll_" (pollJobName pid) = true :=
  strPre_append "poll_" pid

theorem pollMissedName_pre (pid : String) : strPre "poll_" (pollMissedJobName pid) = true :=
  strPre_append "poll_" (pid ++ "_missed")

theorem pollJobName_ne_missed (pid : String) : pollJobName pid ≠ pollMissedJobName pid := by
  intro h
  have hd : (pollJobName pid).data = (pollMissedJobName pid).data := by rw [h]
  unfold pollJobName pollMissedJobName at hd
  rw [strData_append, strData_append, strData_append] at hd
  have hlen := congrArg List.length hd
  have h7 : ("_missed").data.length = 7 := rfl
  simp [List.length_append, h7] at hlen

theorem filter_filter_of_imp {α : Type} (P Q : α → Bool) (h : ∀ a, P a = true → Q a = true)
    (l : List α) : (l.filter Q).filter P = l.filter P := by
  induction l with
  | nil => rfl
  | cons a l ih =>
    cases hQ : Q a with
    | true => simp [List.filter_cons, hQ, ih]
    | false =>
      have hP : P a = false := by
        cases hPa : P a
        · rfl
        · rw [h a hPa] at hQ
          exact absurd hQ (by simp)
      simp [List.filter_cons, hQ, hP, ih]

theorem filter_cancelByName (P : Job → Bool) (key : String)
    (hkey : ∀ j : Job, P j = true → j.name ≠ key) (q : List Job) :
    (cancelByName q key).filter P = q.filter P := by
  unfold cancelByName
  apply filter_filter_of_imp
  intro j hP
  simpa [bne_iff_ne] using hkey j hP

theorem foldl_filter_preserve {β : Type} (P : Job → Bool) (f : List Job → β → List Job)
    (h : ∀ q b, (f q b).filter P = q.filter P) :
    ∀ (l : List β) (q : List Job), (l.foldl f q).filter P = q.filter P := by
  intro l
  induction l with
  | nil => intro q; rfl
  | cons b l ih =>
    intro q
    rw [List.foldl_cons, ih, h]

/-- Every branch of schedule_reminder yields the cancelled queue, possibly
with one job named reminder_id appended. -/
theorem scheduleReminder_shape (now : Int) (q : List Job) (r : Reminder) :
    scheduleReminder now q r = cancelByName q (reminderJobName r.id) ∨
    ∃ tr : Trigger, scheduleReminder now q r =
      cancelByName q (reminderJobName r.id) ++ [⟨reminderJobName r.id, tr⟩] := by
  simp only [scheduleReminder]
  repeat' split
  all_goals first
    | exact Or.inl rfl
    | exact Or.inr ⟨_, rfl⟩

/-- Every branch of schedule_poll yields the cancelled queue, possibly with
one job appended, named either poll_id or poll_id_missed. -/
theorem schedulePoll_shape (now : Int) (q : List Job) (p : Poll) :
    schedulePoll now q p = cancelByName q (pollJobName p.id) ∨
    (∃ tr : Trigger, schedulePoll now q p =
      cancelByName q (pollJobName p.id) ++ [⟨pollJobName p.id, tr⟩]) ∨
    schedulePoll now q p =
      cancelByName q (pollJobName p.id) ++
        [⟨pollMissedJobName p.id, .runOnce (now - mskOffset + 5)⟩] := by
  simp only [schedulePoll]
  repeat' split
  all_goals first
    | exact Or.inl rfl
    | exact Or.inr (Or.inl ⟨_, rfl⟩)
    | exact Or.inr (Or.inr rfl)

theorem not_isReminderNamed_of_name {j : Job} {key : String}
    (hpre : strPre "reminder_" key = true) (h : (!(isReminderNamed j)) = true) :
    j.name ≠ key := by
  intro hname
  have : isReminderNamed j = true := by
    unfold isReminderNamed
    rw [hname]
    exact hpre
  simp [this] at h

theorem not_isPollNamed_of_name {j : Job} {key : String}
    (hpre : strPre "poll_" key = true) (h : (!(isPollNamed j)) = true) :
    j.name ≠ key := by
  intro hname
  have : isPollNamed j = true := by
    unfold isPollNamed
    rw [hname]
    exact hpre
  simp [this] at h

theorem isReminderNamed_of_name {j : Job} {key : String}
    (hpre : strPre "poll_" key = true) (h : isReminderNamed j = true) :
    j.name ≠ key := by
  intro hname
  refine not_rem_and_poll (n := j.name) ⟨h, ?_⟩
  rw [hname]
  exact hpre

theorem isPollNamed_of_name {j : Job} {key : String}
    (hpre : strPre "reminder_" key = true) (h : isPollNamed j = true) :
    j.name ≠ key := by
  intro hname
  refine not_rem_and_poll (n := j.name) ⟨?_, h⟩
  rw [hname]
  exact hpre

/-- schedule_reminder leaves the non-reminder part of the queue unchanged. -/
theorem scheduleReminder_clean (now : Int) (q : List Job) (r : Reminder) :
    (scheduleReminder now q r).filter (fun j => !(isReminderNamed j)) =
      q.filter (fun j => !(isReminderNamed j)) := by
  have hcancel := filter_cancelByName (fun j => !(isReminderNamed j)) (reminderJobName r.id)
    (fun j hj => not_isReminderNamed_of_name (remName_pre r.id) hj) q
  rcases scheduleReminder_shape now q r with h | ⟨tr, h⟩
  · rw [h, hcancel]
  · rw [h, List.filter_append, hcancel]
    have : (([⟨reminderJobName r.id, tr⟩] : List Job).filter
        (fun j => !(isReminderNamed j))) = [] := by
      simp [List.filter_cons, isReminderNamed, remName_pre r.id]
    rw [this, List.append_nil]

/-- schedule_poll leaves the non-poll part of the queue unchanged. -/
theorem schedulePoll_clean (now : Int) (q : List Job) (p : Poll) :
    (schedulePoll now q p).filter (fun j => !(isPollNamed j)) =
      q.filter (fun j => !(isPollNamed j)) := by
  have hcancel := filter_cancelByName (fun j => !(isPollNamed j)) (pollJobName p.id)
    (fun j hj => not_isPollNamed_of_name (pollName_pre p.id) hj) q
  rcases schedulePoll_shape now q p with h | ⟨tr, h⟩ | h
  · rw [h, hcancel]
  · rw [h, List.filter_append, hcancel]
    have : (([⟨pollJobName p.id, tr⟩] : List Job).filter (fun j => !(isPollNamed j))) = [] := by
      simp [List.filter_cons, isPollNamed, pollName_pre p.id]
    rw [this, List.append_nil]
  · rw [h, List.filter_append, hcancel]
    have : (([⟨pollMissedJobName p.id, .runOnce (now - mskOffset + 5)⟩] : List Job).filter
        (fun j => !(isPollNamed j))) = [] := by
      simp [List.filter_cons, isPollNamed, pollMissedName_pre p.id]
    rw [this, List.append_nil]

/-- schedule_poll leaves reminder-named jobs unchanged. -/
theorem schedulePoll_keep_rem (now : Int) (q : List Job) (p : Poll) :
    (schedulePoll now q p).filter isReminderNamed = q.filter isReminderNamed := by
  have hcancel := filter_cancelByName isReminderNamed (pollJobName p.id)
    (fun j hj => isReminderNamed_of_name (pollName_pre p.id) hj) q
  rcases schedulePoll_shape now q p with h | ⟨tr, h⟩ | h
  · rw [h, hcancel]
  · rw [h, List.filter_append, hcancel]
    have : (([⟨pollJobName p.id, tr⟩] : List Job).filter isReminderNamed) = [] := by
      have hni : isReminderNamed (⟨pollJobName p.id, tr⟩ : Job) = false := by
        cases hx : isReminderNamed (⟨pollJobName p.id, tr⟩ : Job)
        · rfl
        · exact absurd rfl (isReminderNamed_of_name (pollName_pre p.id) hx)
      simp [List.filter_cons, hni]
    rw [this, List.append_nil]
  · rw [h, List.filter_append, hcancel]
    have : (([⟨pollMissedJobName p.id, .runOnce (now - mskOffset + 5)⟩] : List Job).filter
        isReminderNamed) = [] := by
      have hni : isReminderNamed
          (⟨pollMissedJobName p.id, .runOnce (now - mskOffset + 5)⟩ : Job) = false := by
        cases hx : isReminderNamed
          (⟨pollMissedJobName p.id, .runOnce (now - mskOffset + 5)⟩ : Job)
        · rfl
        · exact absurd rfl (isReminderNamed_of_name (pollMissedName_pre p.id) hx)
      simp [List.filter_cons, hni]
    rw [this, List.append_nil]

/-- schedule_reminder leaves poll-named jobs unchanged. -/
theorem scheduleReminder_keep_poll (now : Int) (q : List Job) (r : Reminder) :
    (scheduleReminder now q r).filter isPollNamed = q.filter isPollNamed := by
  have hcancel := filter_cancelByName isPollNamed (reminderJobName r.id)
    (fun j hj => isPollNamed_of_name (remName_pre r.id) hj) q
  rcases scheduleReminder_shape now q r with h | ⟨tr, h⟩
  · rw [h, hcancel]
  · rw [h, List.filter_append, hcancel]
    have : (([⟨reminderJobName r.id, tr⟩] : List Job).filter isPollNamed) = [] := by
      have hni : isPollNamed (⟨reminderJobName r.id, tr⟩ : Job) = false := by
        cases hx : isPollNamed (⟨reminderJobName r.id, tr⟩ : Job)
        · rfl
        · exact absurd rfl (isPollNamed_of_name (remName_pre r.id) hx)
      simp [List.filter_cons, hni]
    rw [this, List.append_nil]

theorem scheduleAllReminders_clean (now : Int) (rs : List Reminder) (q : List Job) :
    (scheduleAllReminders now rs q).filter (fun j => !(isReminderNamed j)) =
      q.filter (fun j => !(isReminderNamed j)) :=
  foldl_filter_preserve _ _ (fun q r => scheduleReminder_clean now q r) rs q

theorem scheduleAllPolls_clean (now : Int) (ps : List Poll) (q : List Job) :
    (scheduleAllPolls now ps q).filter (fun j => !(isPollNamed j)) =
      q.filter (fun j => !(isPollNamed j)) := by
  refine foldl_filter_preserve _ _ ?_ ps q
  intro q p
  by_cases hs : p.status = "Active"
  · simp only [hs, if_pos rfl]
    exact schedulePoll_clean now q p
  · simp only [if_neg hs]

theorem scheduleAllPolls_keep_rem (now : Int) (ps : List Poll) (q : List Job) :
    (scheduleAllPolls now ps q).filter isReminderNamed = q.filter isReminderNamed := by
  refine foldl_filter_preserve _ _ ?_ ps q
  intro q p
  by_cases hs : p.status = "Active"
  · simp only [hs, if_pos rfl]
    exact schedulePoll_keep_rem now q p
  · simp only [if_neg hs]

theorem scheduleAllReminders_keep_poll (now : Int) (rs : List Reminder) (q : List Job) :
    (scheduleAllReminders now rs q).filter isPollNamed = q.filter isPollNamed :=
  foldl_filter_preserve _ _ (fun q r => scheduleReminder_keep_poll now q r) rs q

theorem filter_not_self_idem (P : Job → Bool) (q : List Job) :
    ((q.filter P).filter P) = q.filter P :=
  filter_filter_of_imp P P (fun _ h => h) q

theorem countNamed_cancel (q : List Job) (n : String) :
    countNamed (cancelByName q n) n = 0 := by
  unfold countNamed cancelByName
  have : ((q.filter (fun j => j.name != n)).filter (fun j => j.name == n)) = [] := by
    rw [List.filter_eq_nil_iff]
    intro j hj
    have := (List.mem_filter.mp hj).2
    simp only [bne_iff_ne, ne_eq, decide_eq_true_eq] at this
    simp [this]
  rw [this]
  rfl

theorem countNamed_append (q1 q2 : List Job) (n : String) :
    countNamed (q1 ++ q2) n = countNamed q1 n + countNamed q2 n := by
  unfold countNamed
  rw [List.filter_append, List.length_append]

/-- Claim C6: reschedule-all is idempotent for reminders and polls alike;
rescheduling all records twice from the same record set leaves the same
job queue as rescheduling once. -/
theorem claim_C6_reschedule_idempotent (now : Int) (rs : List Reminder) (ps : List Poll)
    (q : List Job) :
    rescheduleAllReminders now rs (rescheduleAllReminders now rs q) =
      rescheduleAllReminders now rs q ∧
    rescheduleAllPolls now ps (rescheduleAllPolls now ps q) =
      rescheduleAllPolls now ps q := by
  constructor
  · unfold rescheduleAllReminders
    rw [scheduleAllReminders_clean, filter_not_self_idem]
  · unfold rescheduleAllPolls
    rw [scheduleAllPolls_clean, filter_not_self_idem]

theorem scheduleAllPolls_eq_filtered (now : Int) (ps : List Poll) (q : List Job) :
    scheduleAllPolls now ps q =
      (ps.filter (fun p => p.status == "Active")).foldl (schedulePoll now) q := by
  induction ps generalizing q with
  | nil => rfl
  | cons p ps ih =>
    unfold scheduleAllPolls
    rw [List.foldl_cons, List.filter_cons]
    by_cases hs : p.status = "Active"
    · simp only [hs, if_pos rfl, beq_self_eq_true, if_true, List.foldl_cons]
      exact ih (schedulePoll now q p)
    · have hb : (p.status == "Active") = false := by simp [hs]
      simp only [if_neg hs, hb, Bool.false_eq_true, if_false]
      exact ih q

/-- Claim C9: schedule_all_polls registers jobs exactly for the polls whose
status field is the string Active, a list with no Active poll adds no
job, and schedule_all_reminders folds the scheduler over every stored
reminder with no status filtering. -/
theorem claim_C9_status_filtering (now : Int) (ps : List Poll) (rs : List Reminder)
    (q : List Job) :
    scheduleAllPolls now ps q =
      (ps.filter (fun p => p.status == "Active")).foldl (schedulePoll now) q ∧
    scheduleAllReminders now rs q = rs.foldl (scheduleReminder now) q ∧
    ((∀ p ∈ ps, p.status ≠ "Active") → scheduleAllPolls now ps q = q) := by
  refine ⟨scheduleAllPolls_eq_filtered now ps q, rfl, ?_⟩
  intro h
  rw [scheduleAllPolls_eq_filtered]
  have : ps.filter (fun p => p.status == "Active") = [] := by
    rw [List.filter_eq_nil_iff]
    intro p hp
    simp [h p hp]
  rw [this]
  rfl

/-- Witness for C9 at concrete inputs: a Deleted poll yields no job. -/
theorem claim_C9_witness :
    scheduleAllPolls 1000000 [pollDeletedSample] [] = [] :=
  (claim_C9_status_filtering 1000000 [pollDeletedSample] [] []).2.2
    (by intro p hp; simp at hp; rw [hp]; decide)

/-- Claim C10: load_reminders and load_polls return the empty list for a
missing file, a whitespace-only file, and undecodable content, instead of
failing. -/
theorem claim_C10_load_total (decodeR : String → Option (List Reminder))
    (decodeP : String → Option (List Poll)) (s : String) :
    load_reminders decodeR FileSt.missing = [] ∧
    load_polls decodeP FileSt.missing = [] ∧
    (pyStrip s = "" →
      load_reminders decodeR (FileSt.content s) = [] ∧
      load_polls decodeP (FileSt.content s) = []) ∧
    (decodeR (pyStrip s) = none → load_reminders decodeR (FileSt.content s) = []) ∧
    (decodeP (pyStrip s) = none → load_polls decodeP (FileSt.content s) = []) := by
  refine ⟨rfl, rfl, ?_, ?_, ?_⟩
  · intro h
    constructor
    · simp [load_reminders, h]
    · simp [load_polls, h]
  · intro h
    by_cases he : pyStrip s = ""
    · simp [load_reminders, he]
    · simp [load_reminders, he, h]
  · intro h
    by_cases he : pyStrip s = ""
    · simp [load_polls, he]
    · simp [load_polls, he, h]

/-- Witness for C10: concrete empty-returning loads through the theorem. -/
theorem claim_C10_witness :
    load_reminders (fun _ => none) FileSt.missing = [] ∧
    load_reminders (fun _ => none) (FileSt.content "") = [] ∧
    load_polls (fun _ => none) (FileSt.content "not json") = [] := by
  refine ⟨(claim_C10_load_total (fun _ => none) (fun _ => none) "").1, ?_, ?_⟩
  · exact ((claim_C10_load_total (fun _ => none) (fun _ => none) "   ").2.2.1 (by decide)).1
  · exact (claim_C10_load_total (fun _ => none) (fun _ => none) "not json").2.2.2.2 rfl

/-- Counterexample to claim C5 as stated: scheduling the same just-missed
one-time poll twice leaves two live jobs for that record id, because the
catch-up job is registered under the name poll_7_missed, which the
cancellation step (matching only poll_7) does not remove. -/
theorem claim_C5_counterexample :
    schedulePoll 1000000 (schedulePoll 1000000 [] pollPastSample) pollPastSample =
      [⟨pollMissedJobName "7", .runOnce 989205⟩, ⟨pollMissedJobName "7", .runOnce 989205⟩] ∧
    (jobsForPollId
        (schedulePoll 1000000 (schedulePoll 1000000 [] pollPastSample) pollPastSample)
        "7").length = 2 := by
  constructor
  · rfl
  · rfl

/-- Claim C5 as amended: after Schedule, at most one live job carries the
primary key name (reminder_id, poll_id); the catch-up job of a missed
one-time poll lives under poll_id_missed and is not covered by the
cancellation, so only the primary name is kept unique. -/
theorem claim_C5_amended (now : Int) (q : List Job) (r : Reminder) (p : Poll) :
    countNamed (scheduleReminder now q r) (reminderJobName r.id) ≤ 1 ∧
    countNamed (schedulePoll now q p) (pollJobName p.id) ≤ 1 := by
  constructor
  · rcases scheduleReminder_shape now q r with h | ⟨tr, h⟩ <;> rw [h]
    · rw [countNamed_cancel]
      exact Nat.zero_le 1
    · rw [countNamed_append, countNamed_cancel]
      have : countNamed [(⟨reminderJobName r.id, tr⟩ : Job)] (reminderJobName r.id) = 1 := by
        simp [countNamed]
      omega
  · rcases schedulePoll_shape now q p with h | ⟨tr, h⟩ | h <;> rw [h]
    · rw [countNamed_cancel]
      exact Nat.zero_le 1
    · rw [countNamed_append, countNamed_cancel]
      have : countNamed [(⟨pollJobName p.id, tr⟩ : Job)] (pollJobName p.id) = 1 := by
        simp [countNamed]
      omega
    · rw [countNamed_append, countNamed_cancel]
      have : countNamed [(⟨pollMissedJobName p.id, .runOnce (now - mskOffset + 5)⟩ : Job)]
          (pollJobName p.id) = 0 := by
        have hne : pollMissedJobName p.id ≠ pollJobName p.id :=
          fun h => pollJobName_ne_missed p.id h.symm
        simp [countNamed, hne]
      omega

/-- Counterexample to claim C1 as stated: a one-time reminder whose trigger
is 1800 s in the past (well inside the one-hour grace window) gets no job
at all from schedule_reminder. -/
theorem claim_C1_counterexample :
    (998200 : Int) ≤ 1000000 ∧ (1000000 : Int) - 998200 ≤ 3600 ∧
    scheduleReminder 1000000 [] remPastSample = [] := by
  refine ⟨by decide, by decide, rfl⟩

/-- Claim C1 as amended: the missed-trigger grace window exists only for
polls.  A one-time poll past its trigger by at most 3600 s gets an
immediate job five seconds from the current UTC instant under the
poll_id_missed name; a one-time reminder whose trigger is not in the
future gets no job, however recent the trigger. -/
theorem claim_C1_amended (now : Int) (q : List Job) (p : Poll) (t : Int) (r : Reminder)
    (u : Int) :
    ((p.ptype = "once" ∨ p.ptype = "one_time") → p.datetimeMsk = some t → ¬(t > now) →
      now - t ≤ 3600 →
      schedulePoll now q p =
        cancelByName q (pollJobName p.id) ++
          [⟨pollMissedJobName p.id, .runOnce (now - mskOffset + 5)⟩]) ∧
    (r.rtype = "once" → r.datetimeMsk = some u → ¬(u > now) →
      scheduleReminder now q r = cancelByName q (reminderJobName r.id)) := by
  constructor
  · intro htype hdt hlt hgrace
    simp only [schedulePoll, hdt]
    rw [if_pos htype, if_neg hlt, if_pos (by omega : t - now ≥ -3600)]
  · intro htype hdt hlt
    simp only [scheduleReminder, hdt]
    rw [if_pos htype, if_neg hlt]

/-- Witness for the amended C1 at the sample records and clock 1000000. -/
theorem claim_C1_amended_witness :
    schedulePoll 1000000 [] pollPastSample = [⟨pollMissedJobName "7", .runOnce 989205⟩] ∧
    scheduleReminder 1000000 [] remPastSample = [] := by
  have h := claim_C1_amended 1000000 [] pollPastSample 998200 remPastSample 998200
  constructor
  · exact (h.1 (Or.inl rfl) rfl (by decide) (by decide)).trans rfl
  · exact (h.2 rfl rfl (by decide)).trans rfl

theorem all_filter_self {α : Type} (p : α → Bool) (l : List α) : (l.filter p).all p = true := by
  rw [List.all_eq_true]
  intro x hx
  exact (List.mem_filter.mp hx).2

theorem reminderStep_blocked_mono (send1 send2 : ChatId → SendRes) (a : Fanout) (c : ChatId)
    {x : ChatId} (h : x ∈ a.blocked) : x ∈ (reminderStep send1 send2 a c).blocked := by
  unfold reminderStep
  split
  · exact h
  · simp only [List.mem_append]
    exact Or.inl h
  · split
    · exact h
    · simp only [List.mem_append]
      exact Or.inl h
    · exact h

theorem foldl_reminderStep_blocked_mono (send1 send2 : ChatId → SendRes) (l : List ChatId)
    (a : Fanout) {x : ChatId} (h : x ∈ a.blocked) :
    x ∈ (l.foldl (reminderStep send1 send2) a).blocked := by
  induction l generalizing a with
  | nil => exact h
  | cons c l ih => exact ih _ (reminderStep_blocked_mono send1 send2 a c h)

theorem foldl_reminderStep_blocked (send1 send2 : ChatId → SendRes) (l : List ChatId)
    (a : Fanout) {cid : ChatId} (hmem : cid ∈ l)
    (hperm : send1 cid = SendRes.errPermanent) :
    cid ∈ (l.foldl (reminderStep send1 send2) a).blocked := by
  induction l generalizing a with
  | nil => cases hmem
  | cons c l ih =>
    rw [List.foldl_cons]
    rcases List.mem_cons.mp hmem with rfl | h
    · apply foldl_reminderStep_blocked_mono
      unfold reminderStep
      rw [hperm]
      simp
    · exact ih _ h

theorem foldl_reminderStep_no_fallback (send1 send2 : ChatId → SendRes) (l : List ChatId)
    (a : Fanout) {cid : ChatId} (hperm : send1 cid = SendRes.errPermanent)
    (hm : (cid, true) ∉ a.attempts) :
    (cid, true) ∉ (l.foldl (reminderStep send1 send2) a).attempts := by
  induction l generalizing a with
  | nil => exact hm
  | cons c l ih =>
    rw [List.foldl_cons]
    apply ih
    unfold reminderStep
    by_cases hc : c = cid
    · subst hc
      rw [hperm]
      simp [hm]
    · split
      · simp only [List.mem_append, List.mem_singleton, Prod.mk.injEq]
        rintro (h1 | ⟨h2, h3⟩)
        · exact hm h1
        · cases h3
      · simp only [List.mem_append, List.mem_singleton, Prod.mk.injEq]
        rintro (h1 | ⟨h2, h3⟩)
        · exact hm h1
        · cases h3
      · split
        all_goals
          simp only [List.mem_append, List.mem_cons, List.not_mem_nil, or_false,
            Prod.mk.injEq]
          rintro (h1 | ⟨h2, h3⟩ | ⟨h2, h3⟩)
          · exact hm h1
          · cases h3
          · exact hc h2.symm

theorem pollStep_blocked_mono (send1 : ChatId → SendRes) (a : Fanout) (c : ChatId)
    {x : ChatId} (h : x ∈ a.blocked) : x ∈ (pollStep send1 a c).blocked := by
  unfold pollStep
  split
  · exact h
  · simp only [List.mem_append]
    exact Or.inl h
  · exact h

theorem foldl_pollStep_blocked_mono (send1 : ChatId → SendRes) (l : List ChatId)
    (a : Fanout) {x : ChatId} (h : x ∈ a.blocked) :
    x ∈ (l.foldl (pollStep send1) a).blocked := by
  induction l generalizing a with
  | nil => exact h
  | cons c l ih => exact ih _ (pollStep_blocked_mono send1 a c h)

theorem foldl_pollStep_blocked (send1 : ChatId → SendRes) (l : List ChatId)
    (a : Fanout) {cid : ChatId} (hmem : cid ∈ l)
    (hperm : send1 cid = SendRes.errPermanent) :
    cid ∈ (l.foldl (pollStep send1) a).blocked := by
  induction l generalizing a with
  | nil => cases hmem
  | cons c l ih =>
    rw [List.foldl_cons]
    rcases List.mem_cons.mp hmem with rfl | h
    · apply foldl_pollStep_blocked_mono
      unfold pollStep
      rw [hperm]
      simp
    · exact ih _ h

theorem sendReminder_fanout (now : Int) (r : Reminder) (chats : List ChatId)
    (store : List Reminder) (send1 send2 : ChatId → SendRes) (hne : ¬ chats = []) :
    (sendReminder now r chats store send1 send2).blocked =
      (chats.foldl (reminderStep send1 send2) fanoutInit).blocked ∧
    (sendReminder now r chats store send1 send2).attempts =
      (chats.foldl (reminderStep send1 send2) fanoutInit).attempts ∧
    (sendReminder now r chats store send1 send2).chats =
      (if (chats.foldl (reminderStep send1 send2) fanoutInit).blocked = [] then chats
       else chats.filter
         (fun c => !(listHas (chats.foldl (reminderStep send1 send2) fanoutInit).blocked c))) := by
  simp only [sendReminder, if_neg hne]
  split
  · exact ⟨rfl, rfl, rfl⟩
  · exact ⟨rfl, rfl, rfl⟩

theorem sendPoll_fanout (now : Int) (p : Poll) (chats : List ChatId)
    (store : List Poll) (send1 : ChatId → SendRes) (hne : ¬ chats = []) :
    (sendPoll now p chats store send1).blocked =
      (chats.foldl (pollStep send1) fanoutInit).blocked ∧
    (sendPoll now p chats store send1).chats =
      (if (chats.foldl (pollStep send1) fanoutInit).blocked = [] then chats
       else chats.filter
         (fun c => !(listHas (chats.foldl (pollStep send1) fanoutInit).blocked c))) := by
  simp only [sendPoll]
  rw [if_neg hne]
  exact ⟨rfl, rfl⟩

theorem notMem_filtered_chats {blocked : List ChatId} {chats : List ChatId} {cid : ChatId}
    (hb : cid ∈ blocked) :
    cid ∉ (if blocked = [] then chats else chats.filter (fun c => !(listHas blocked c))) := by
  have hne : ¬ blocked = [] := by
    intro h
    rw [h] at hb
    cases hb
  rw [if_neg hne]
  intro hmem
  have := (List.mem_filter.mp hmem).2
  have hhas : listHas blocked cid = true := by
    simp only [listHas, List.any_eq_true]
    exact ⟨cid, hb, by simp⟩
  rw [hhas] at this
  cases this

/-- Claim C4: a subscriber whose delivery attempt fails with a
permanently-unreachable error kind is put on the removal list, gets no
degraded-format fallback attempt, and is absent from the persisted
subscriber set once the fan-out completes; for polls likewise (polls
never attempt a fallback at all). -/
theorem claim_C4_permanent_removal (now : Int) (r : Reminder) (chats : List ChatId)
    (store : List Reminder) (send1 send2 : ChatId → SendRes) (p : Poll) (pstore : List Poll)
    (cid : ChatId) (hmem : cid ∈ chats) (hperm : send1 cid = SendRes.errPermanent) :
    (cid ∈ (sendReminder now r chats store send1 send2).blocked ∧
      (cid, true) ∉ (sendReminder now r chats store send1 send2).attempts ∧
      cid ∉ (sendReminder now r chats store send1 send2).chats) ∧
    (cid ∈ (sendPoll now p chats pstore send1).blocked ∧
      cid ∉ (sendPoll now p chats pstore send1).chats) := by
  have hne : ¬ chats = [] := by
    intro h
    rw [h] at hmem
    cases hmem
  obtain ⟨hb, ha, hc⟩ := sendReminder_fanout now r chats store send1 send2 hne
  obtain ⟨pb, pc⟩ := sendPoll_fanout now p chats pstore send1 hne
  have hbl := foldl_reminderStep_blocked send1 send2 chats fanoutInit hmem hperm
  have pbl := foldl_pollStep_blocked send1 chats fanoutInit hmem hperm
  refine ⟨⟨?_, ?_, ?_⟩, ?_, ?_⟩
  · rw [hb]
    exact hbl
  · rw [ha]
    exact foldl_reminderStep_no_fallback send1 send2 chats fanoutInit hperm
      (by intro h; cases h)
  · rw [hc]
    exact notMem_filtered_chats hbl
  · rw [pb]
    exact pbl
  · rw [pc]
    exact notMem_filtered_chats pbl

/-- Witness for C4: chat 10 is permanently unreachable among two chats. -/
theorem claim_C4_witness :
    ((10 : ChatId) ∈ (sendReminder 1000 remDailySample [10, 20] [remDailySample]
        blockedTen alwaysOk).blocked ∧
      ((10 : ChatId), true) ∉ (sendReminder 1000 remDailySample [10, 20] [remDailySample]
        blockedTen alwaysOk).attempts ∧
      (10 : ChatId) ∉ (sendReminder 1000 remDailySample [10, 20] [remDailySample]
        blockedTen alwaysOk).chats) ∧
    ((10 : ChatId) ∈ (sendPoll 1000 pollDailySample [10, 20] [pollDailySample]
        blockedTen).blocked ∧
      (10 : ChatId) ∉ (sendPoll 1000 pollDailySample [10, 20] [pollDailySample]
        blockedTen).chats) :=
  claim_C4_permanent_removal 1000 remDailySample [10, 20] [remDailySample] blockedTen
    alwaysOk pollDailySample [pollDailySample] 10 (by decide) rfl

/-- Claim C2: after any firing of the delivery engine, a once record is
absent from the resulting local collection, whatever the per-subscriber
outcomes were. -/
theorem claim_C2_once_removed (now : Int) (r : Reminder) (chats : List ChatId)
    (store : List Reminder) (send1 send2 : ChatId → SendRes) (p : Poll)
    (pchats : List ChatId) (pstore : List Poll) (psend : ChatId → SendRes) :
    (r.rtype = "once" →
      ((sendReminder now r chats store send1 send2).store.all
        (fun x => x.id != r.id)) = true) ∧
    (isOncePoll p = true →
      ((sendPoll now p pchats pstore psend).store.all (fun x => x.id != p.id)) = true) := by
  constructor
  · intro hr
    by_cases hne : chats = []
    · subst hne
      simp only [sendReminder, if_pos rfl, if_pos hr]
      exact all_filter_self _ _
    · simp only [sendReminder, if_neg hne, if_pos hr]
      exact all_filter_self _ _
  · intro hp
    by_cases hne : pchats = []
    · subst hne
      simp only [sendPoll, if_pos rfl, hp, if_true]
      exact all_filter_self _ _
    · simp only [sendPoll, if_neg hne, hp, if_true]
      exact all_filter_self _ _

/-- Witness for C2: a once reminder and a once poll delivered to one chat
are gone from their collections afterwards. -/
theorem claim_C2_witness :
    ((sendReminder 1000 remPastSample [10] [remPastSample, remDailySample] alwaysOk
        alwaysOk).store.all (fun x => x.id != remPastSample.id)) = true ∧
    ((sendPoll 1000 pollPastSample [10] [pollPastSample] alwaysOk).store.all
      (fun x => x.id != pollPastSample.id)) = true :=
  ⟨(claim_C2_once_removed 1000 remPastSample [10] [remPastSample, remDailySample] alwaysOk
      alwaysOk pollPastSample [10] [pollPastSample] alwaysOk).1 rfl,
   (claim_C2_once_removed 1000 remPastSample [10] [remPastSample, remDailySample] alwaysOk
      alwaysOk pollPastSample [10] [pollPastSample] alwaysOk).2 rfl⟩

/-- Claim C8: a firing that finds the subscriber set empty makes no
delivery attempt; a once record is removed from the local collection and
its mirrored copy is marked delivered-with-no-recipients, while a
recurring record is left unchanged. -/
theorem claim_C8_empty_audience (now : Int) (r : Reminder) (store : List Reminder)
    (send1 send2 : ChatId → SendRes) (p : Poll) (pstore : List Poll)
    (psend : ChatId → SendRes) :
    (sendReminder now r [] store send1 send2).attempts = [] ∧
    (sendPoll now p [] pstore psend).attempts = [] ∧
    (r.rtype = "once" →
      (sendReminder now r [] store send1 send2).store =
        store.filter (fun x => x.id != r.id) ∧
      ((sendReminder now r [] store send1 send2).backupCopy.map Reminder.lastSent) =
        some (some now) ∧
      ((sendReminder now r [] store send1 send2).backupCopy.map Reminder.deliveryStatus) =
        some "No recipients available - auto-deleted") ∧
    (¬ r.rtype = "once" → (sendReminder now r [] store send1 send2).store = store) ∧
    (isOncePoll p = true →
      (sendPoll now p [] pstore psend).store = pstore.filter (fun x => x.id != p.id) ∧
      ((sendPoll now p [] pstore psend).backupCopy.map Poll.lastSent) = some (some now) ∧
      ((sendPoll now p [] pstore psend).backupCopy.map Poll.deliveryStatus) =
        some "No recipients available - auto-deleted") ∧
    (isOncePoll p = false → (sendPoll now p [] pstore psend).store = pstore) := by
  refine ⟨?_, ?_, ?_, ?_, ?_, ?_⟩
  · unfold sendReminder
    rw [if_pos (show ([] : List ChatId) = [] from rfl)]
    by_cases hr : r.rtype = "once"
    · rw [if_pos hr]
    · rw [if_neg hr]
  · unfold sendPoll
    rw [if_pos (show ([] : List ChatId) = [] from rfl)]
    by_cases hp : isOncePoll p = true
    · rw [if_pos hp]
    · rw [if_neg hp]
  · intro hr
    unfold sendReminder
    rw [if_pos (show ([] : List ChatId) = [] from rfl), if_pos hr]
    exact ⟨rfl, rfl, rfl⟩
  · intro hr
    unfold sendReminder
    rw [if_pos (show ([] : List ChatId) = [] from rfl), if_neg hr]
  · intro hp
    unfold sendPoll
    rw [if_pos (show ([] : List ChatId) = [] from rfl), if_pos hp]
    exact ⟨rfl, rfl, rfl⟩
  · intro hp
    unfold sendPoll
    rw [if_pos (show ([] : List ChatId) = [] from rfl),
      if_neg (show ¬ isOncePoll p = true by simp [hp])]

/-- Witness for C8: the once samples with an empty audience. -/
theorem claim_C8_witness :
    (sendReminder 1000 remPastSample [] [remPastSample] alwaysOk alwaysOk).attempts = [] ∧
    (sendReminder 1000 remPastSample [] [remPastSample] alwaysOk alwaysOk).store =
      ([remPastSample].filter (fun x => x.id != remPastSample.id)) ∧
    (sendReminder 1000 remDailySample [] [remDailySample] alwaysOk alwaysOk).store =
      [remDailySample] ∧
    (sendPoll 1000 pollDailySample [] [pollDailySample] alwaysOk).store =
      [pollDailySample] := by
  have h1 := claim_C8_empty_audience 1000 remPastSample [remPastSample] alwaysOk alwaysOk
    pollDailySample [pollDailySample] alwaysOk
  have h2 := claim_C8_empty_audience 1000 remDailySample [remDailySample] alwaysOk alwaysOk
    pollDailySample [pollDailySample] alwaysOk
  exact ⟨h1.1, (h1.2.2.1 rfl).1, h2.2.2.2.1 (by decide), h2.2.2.2.2.2 rfl⟩

theorem replaceFirstPoll_mem (l : List Poll) (pid : String) (np : Poll)
    (h : ∃ x ∈ l, x.id = pid) : np ∈ replaceFirstPoll l pid np := by
  induction l with
  | nil =>
    obtain ⟨x, hx, _⟩ := h
    cases hx
  | cons a l ih =>
    unfold replaceFirstPoll
    by_cases ha : a.id = pid
    · rw [if_pos ha]
      exact List.mem_cons_self _ _
    · rw [if_neg ha]
      obtain ⟨x, hx, hxid⟩ := h
      rcases List.mem_cons.mp hx with rfl | hxl
      · exact absurd hxid ha
      · exact List.mem_cons_of_mem _ (ih ⟨x, hxl, hxid⟩)

/-- With a non-empty audience and a recurring poll, the resulting local
collection is the old one with the first record of matching id replaced
by a copy carrying the firing time in last_sent. -/
theorem sendPoll_store_recurring (now : Int) (p : Poll) (chats : List ChatId)
    (store : List Poll) (send1 : ChatId → SendRes) (hne : ¬ chats = [])
    (honce : isOncePoll p = false) :
    ∃ u : Poll, (sendPoll now p chats store send1).store = replaceFirstPoll store p.id u ∧
      u.id = p.id ∧ u.lastSent = some now := by
  simp only [sendPoll]
  rw [if_neg hne, if_neg (show ¬ isOncePoll p = true by simp [honce])]
  exact ⟨_, rfl, rfl, rfl⟩

/-- Counterexample to claim C3 as stated: a daily reminder fired with a
non-empty audience leaves the reminder collection entirely unchanged;
in particular its last_sent (still none here) is not set to the firing
time. -/
theorem claim_C3_counterexample :
    (sendReminder 5000 remDailySample [10] [remDailySample] alwaysOk alwaysOk).store =
      [remDailySample] ∧
    remDailySample.lastSent = none := ⟨rfl, rfl⟩

/-- Claim C3 as amended: after a firing with a non-empty subscriber set, a
recurring poll record present in the collection is rewritten in place
with last_sent set to the firing time, while the reminder collection is
left entirely unchanged by a recurring reminder firing (the record stays
present but its last_sent is not updated). -/
theorem claim_C3_amended (now : Int) (p : Poll) (chats : List ChatId) (store : List Poll)
    (send1 : ChatId → SendRes) (r : Reminder) (rchats : List ChatId)
    (rstore : List Reminder) (rs1 rs2 : ChatId → SendRes) :
    (¬ chats = [] →
      (p.ptype = "daily" ∨ p.ptype = "daily_poll" ∨ p.ptype = "weekly" ∨
        p.ptype = "weekly_poll") →
      (store.any (fun x => x.id == p.id)) = true →
      ((sendPoll now p chats store send1).store.any
        (fun x => x.id == p.id && x.lastSent == some now)) = true) ∧
    (¬ rchats = [] → (r.rtype = "daily" ∨ r.rtype = "weekly") →
      (sendReminder now r rchats rstore rs1 rs2).store = rstore) := by
  constructor
  · intro hne htype hmem
    have honce : isOncePoll p = false := by
      rcases htype with h | h | h | h <;> simp [isOncePoll, h]
    obtain ⟨u, hst, hid, hls⟩ := sendPoll_store_recurring now p chats store send1 hne honce
    rw [hst, List.any_eq_true]
    refine ⟨u, ?_, ?_⟩
    · apply replaceFirstPoll_mem
      rw [List.any_eq_true] at hmem
      obtain ⟨x, hx, hxe⟩ := hmem
      exact ⟨x, hx, by simpa using hxe⟩
    · simp [hid, hls]
  · intro hne htype
    have hnotonce : ¬ r.rtype = "once" := by
      rcases htype with h | h <;> simp [h]
    simp only [sendReminder]
    rw [if_neg hne, if_neg hnotonce]

/-- Witness for the amended C3 at the daily samples. -/
theorem claim_C3_amended_witness :
    ((sendPoll 5000 pollDailySample [10] [pollDailySample] alwaysOk).store.any
      (fun x => x.id == pollDailySample.id && x.lastSent == some 5000)) = true ∧
    (sendReminder 5000 remDailySample [10] [remDailySample] alwaysOk alwaysOk).store =
      [remDailySample] := by
  have h := claim_C3_amended 5000 pollDailySample [10] [pollDailySample] alwaysOk
    remDailySample [10] [remDailySample] alwaysOk alwaysOk
  exact ⟨h.1 (by decide) (Or.inl rfl) (by decide), h.2 (by decide) (Or.inl rfl)⟩

theorem restoreFromBackup_fail {α : Type} (b : RestoreOutcome α) (l : List α)
    (h : b.succeeded = false) : restoreFromBackup b l = (false, l) := by
  cases b
  · rfl
  · rfl
  · simp [RestoreOutcome.succeeded] at h

theorem rem_imp_notPoll (j : Job) (h : isReminderNamed j = true) :
    (!(isPollNamed j)) = true := by
  cases hp : isPollNamed j
  · rfl
  · exact absurd ⟨h, hp⟩ not_rem_and_poll

theorem poll_imp_notRem (j : Job) (h : isPollNamed j = true) :
    (!(isReminderNamed j)) = true := by
  cases hp : isReminderNamed j
  · rfl
  · exact absurd ⟨hp, h⟩ not_rem_and_poll

theorem rescheduleAllPolls_keep_rem (now : Int) (ps : List Poll) (q : List Job) :
    (rescheduleAllPolls now ps q).filter isReminderNamed = q.filter isReminderNamed := by
  unfold rescheduleAllPolls
  rw [scheduleAllPolls_keep_rem]
  exact filter_filter_of_imp isReminderNamed _ rem_imp_notPoll q

theorem rescheduleAllReminders_keep_poll (now : Int) (rs : List Reminder) (q : List Job) :
    (rescheduleAllReminders now rs q).filter isPollNamed = q.filter isPollNamed := by
  unfold rescheduleAllReminders
  rw [scheduleAllReminders_keep_poll]
  exact filter_filter_of_imp isPollNamed _ poll_imp_notRem q

/-- Claim C7: when the backup restore for a collection fails or the store
is unreachable, that local collection keeps its previous contents, the
live jobs of that collection are not cancelled, and rescheduling runs
only for a collection whose restore succeeded; likewise the startup
ensure-polls path keeps the local poll collection on backup failure. -/
theorem claim_C7_backup_failure_frame (now : Int) (bRem : RestoreOutcome Reminder)
    (bPoll : RestoreOutcome Poll) (st : BotState) (sheets : Bool)
    (b : RestoreOutcome Poll) (localPolls : List Poll) :
    (bRem.succeeded = false →
      (restoreCommand now bRem bPoll st).reminders = st.reminders ∧
      (restoreCommand now bRem bPoll st).jobs.filter isReminderNamed =
        st.jobs.filter isReminderNamed) ∧
    (bPoll.succeeded = false →
      (restoreCommand now bRem bPoll st).polls = st.polls ∧
      (restoreCommand now bRem bPoll st).jobs.filter isPollNamed =
        st.jobs.filter isPollNamed) ∧
    (b.succeeded = false → (ensurePollsFile sheets b localPolls).2 = localPolls) := by
  refine ⟨?_, ?_, ?_⟩
  · intro h
    have hr := restoreFromBackup_fail bRem st.reminders h
    constructor
    · simp [restoreCommand, hr]
    · simp only [restoreCommand, hr]
      by_cases pc : (restoreFromBackup bPoll st.polls).1 = true
      · simp only [if_pos pc, if_neg (show ¬ ((false, st.reminders).1 = true) by simp)]
        exact rescheduleAllPolls_keep_rem now _ st.jobs
      · simp only [if_neg pc, if_neg (show ¬ ((false, st.reminders).1 = true) by simp)]
  · intro h
    have hp := restoreFromBackup_fail bPoll st.polls h
    constructor
    · simp [restoreCommand, hp]
    · simp only [restoreCommand, hp]
      by_cases rc : (restoreFromBackup bRem st.reminders).1 = true
      · simp only [if_pos rc, if_neg (show ¬ ((false, st.polls).1 = true) by simp)]
        exact rescheduleAllReminders_keep_poll now _ st.jobs
      · simp only [if_neg rc, if_neg (show ¬ ((false, st.polls).1 = true) by simp)]
  · intro h
    have hb := restoreFromBackup_fail b localPolls h
    have hnil : ¬ localPolls.length > 0 → localPolls = [] := by
      intro hl
      cases localPolls
      · rfl
      · simp at hl
    unfold ensurePollsFile
    by_cases hs : sheets = true
    · rw [if_pos hs, hb]
      by_cases hl : localPolls.length > 0
      · rw [if_pos hl]
      · rw [if_neg hl, hnil hl]
    · rw [if_neg hs]
      by_cases hl : localPolls.length > 0
      · rw [if_pos hl]
      · rw [if_neg hl, hnil hl]

/-- Witness for C7: unreachable reminder backup and failed poll backup
leave both concrete collections untouched. -/
theorem claim_C7_witness :
    (restoreCommand 1000 RestoreOutcome.unreachable RestoreOutcome.failure
        ⟨[remDailySample], [pollDailySample], []⟩).reminders = [remDailySample] ∧
    (restoreCommand 1000 RestoreOutcome.unreachable RestoreOutcome.failure
        ⟨[remDailySample], [pollDailySample], []⟩).polls = [pollDailySample] ∧
    (ensurePollsFile true RestoreOutcome.unreachable [pollDailySample]).2 =
      [pollDailySample] := by
  have h := claim_C7_backup_failure_frame 1000 RestoreOutcome.unreachable
    RestoreOutcome.failure ⟨[remDailySample], [pollDailySample], []⟩ true
    RestoreOutcome.unreachable [pollDailySample]
  exact ⟨(h.1 rfl).1, (h.2.1 rfl).1, h.2.2 rfl⟩

end Bot
